import Mathlib

/-!
# Verification of the task-storage and recurrence core of a todo backend

This file gives a shallow embedding in Lean 4 of the task-storage component
of the todoapp backend (`src/crud.py`, `src/models/task.py`, `src/models.py`,
`src/services/audit.py`) and proves the specified properties of that code.

Conventions:
* Python `datetime` values are modelled by the `DateTime` structure below:
  a calendar date (year, month, day) plus a time-of-day offset `timeOfDay`
  (naive datetimes compare lexicographically on these components, and
  `timedelta(days = n)` addition advances the calendar date by `n` days
  while preserving the time of day, which is exactly `addDays`).
* The JSON file behind `TaskStorage` holds the task list; every operation is
  a load / compute / save round trip, so the operations are modelled as
  functions on the loaded `List Task`, with `datetime.now()` passed in
  explicitly as a `now` argument.  `load_tasks` itself is modelled over a
  `StoredPayload` that distinguishes a syntactically valid payload from a
  malformed one (`json.loads` raising `JSONDecodeError`).
* Python truthiness tests on optional strings (`if task.recurrence:`) are
  `pyTruthy`: `None` and the empty string are falsy.
-/

namespace Todo

/-- A naive `datetime`: calendar date plus time-of-day offset. -/
structure DateTime where
  year : Nat
  month : Nat
  day : Nat
  timeOfDay : Nat
deriving DecidableEq, Repr

/-- Gregorian leap-year rule (Python `calendar.isleap`). -/
def isLeapYear (y : Nat) : Bool :=
  y % 4 == 0 && (y % 100 != 0 || y % 400 == 0)

/-- Number of days in a month (`calendar.monthrange(year, month)[1]`). -/
def daysInMonth (year month : Nat) : Nat :=
  if month == 2 then (if isLeapYear year then 29 else 28)
  else if month == 4 || month == 6 || month == 9 || month == 11 then 30
  else 31

/-- A `DateTime` denotes a real calendar date (Python datetimes are valid by
construction). -/
def DateTime.Valid (d : DateTime) : Prop :=
  1 ≤ d.month ∧ d.month ≤ 12 ∧ 1 ≤ d.day ∧ d.day ≤ daysInMonth d.year d.month

instance (d : DateTime) : Decidable d.Valid := by
  unfold DateTime.Valid; infer_instance

/-- The calendar day after `d`, same time of day. -/
def nextDay (d : DateTime) : DateTime :=
  if d.day < daysInMonth d.year d.month then { d with day := d.day + 1 }
  else if d.month < 12 then { d with month := d.month + 1, day := 1 }
  else { d with year := d.year + 1, month := 1, day := 1 }

/-- `d + timedelta(days = n)` on a naive datetime: advance `n` calendar days,
preserving the time of day. -/
def addDays (d : DateTime) : Nat → DateTime
  | 0 => d
  | n + 1 => addDays (nextDay d) n

/-- `TaskStorage._calculate_next_due_date` (src/crud.py lines 175-196):
next due date for a recurrence pattern, `none` for an unrecognized pattern.
The monthly branch mirrors the source arithmetic
(`year = year + month // 12`, `month = month % 12 + 1`,
`day = min(day, monthrange(year, month)[1])`, then `replace(...)`,
which keeps the time of day). -/
def calculate_next_due_date (current_due : DateTime) (recurrence : String) :
    Option DateTime :=
  if recurrence = "daily" then some (addDays current_due 1)
  else if recurrence = "weekly" then some (addDays current_due 7)
  else if recurrence = "monthly" then
    let month := current_due.month
    let year := current_due.year + month / 12
    let month := month % 12 + 1
    let day := min current_due.day (daysInMonth year month)
    some { current_due with year := year, month := month, day := day }
  else none

/-- `TaskPriority` (src/models/task.py lines 13-16). -/
inductive TaskPriority where
  | high
  | medium
  | low
deriving DecidableEq, Repr

/-- The `.value` string of a `TaskPriority` member. -/
def TaskPriority.value : TaskPriority → String
  | .high => "high"
  | .medium => "medium"
  | .low => "low"

/-- Python `str.lower()` as per-character lowercasing (the behaviour of the
source's `.lower()` calls on the ASCII data handled here). -/
def strLower (s : String) : String := ⟨s.data.map Char.toLower⟩

/-- Lexicographic comparison of character lists by code point, the order
Python uses to compare strings. -/
def charListLe : List Char → List Char → Bool
  | [], _ => true
  | _ :: _, [] => false
  | a :: as, b :: bs =>
    if a.toNat < b.toNat then true
    else if b.toNat < a.toNat then false
    else charListLe as bs

/-- Python string `<=`. -/
def strLe (a b : String) : Bool := charListLe a.data b.data

/-- `TaskPriority(s)`: enum lookup by value, `none` when no member matches. -/
def taskPriorityOfValue (s : String) : Option TaskPriority :=
  if s = "high" then some .high
  else if s = "medium" then some .medium
  else if s = "low" then some .low
  else none

/-- `Task.parse_priority` (src/models/task.py lines 33-41) on a string input:
lowercase, look the value up in `TaskPriority`, and fall back to `MEDIUM`
when the lookup raises `ValueError`. -/
def parse_priority (v : String) : TaskPriority :=
  match taskPriorityOfValue (strLower v) with
  | some p => p
  | none => .medium

/-- The task record as used by `TaskStorage` (fields of the `Task` models in
src/models/task.py lines 18-31 and src/models.py lines 28-58; `priority` is
optional with no value as default, and `tags` a native list, as in the
`Task(...)` constructions of src/crud.py). -/
structure Task where
  id : Nat
  user_id : Nat
  title : String
  description : String := ""
  status : String := "pending"
  priority : Option TaskPriority := none
  tags : List String := []
  completed : Bool := false
  due_date : Option DateTime := none
  recurrence : Option String := none
  created_at : DateTime
  updated_at : DateTime
  completed_at : Option DateTime := none
deriving DecidableEq, Repr

/-- Python truthiness of an optional string: `None` and `""` are falsy. -/
def pyTruthy : Option String → Bool
  | none => false
  | some s => !(s == "")

/-- The persisted `tasks.json` content: either a syntactically valid payload
holding a task list, or malformed text on which `json.loads` raises
`JSONDecodeError`. -/
inductive StoredPayload where
  | valid (tasks : List Task)
  | malformed (raw : String)

/-- `TaskStorage.load_tasks` (src/crud.py lines 32-55): returns the task list
of a valid payload and raises `ValueError("Corrupted tasks file: ...")` on a
malformed one. -/
def load_tasks : StoredPayload → Except String (List Task)
  | .valid tasks => .ok tasks
  | .malformed raw => .error ("Corrupted tasks file: " ++ raw)

/-- `max((t.id for t in tasks), default=0)`. -/
def maxId : List Task → Nat
  | [] => 0
  | t :: ts => max t.id (maxId ts)

/-- `TaskStorage.get_next_id` (src/crud.py lines 66-75). -/
def get_next_id (tasks : List Task) : Nat :=
  if tasks.isEmpty then 1 else maxId tasks + 1

/-- `TaskStorage.add_task` (src/crud.py lines 77-112): build the new task
with the next id and the model defaults, append it, and return it together
with the saved list. -/
def add_task (tasks : List Task) (now : DateTime) (title : String)
    (description : String) (priority : Option TaskPriority)
    (tags : Option (List String)) (due_date : Option DateTime)
    (recurrence : Option String) : List Task × Task :=
  let task : Task :=
    { id := get_next_id tasks
      user_id := 1
      title := title
      description := description
      priority := priority
      tags := tags.getD []
      due_date := due_date
      recurrence := recurrence
      created_at := now
      updated_at := now }
  (tasks ++ [task], task)

/-- `TaskStorage.get_task_by_id` (src/crud.py lines 122-135): linear scan,
`None` when absent. -/
def get_task_by_id (tasks : List Task) (task_id : Nat) : Option Task :=
  tasks.find? (fun t => t.id == task_id)

/-- Replace the first element satisfying `p` (the `all_tasks[i] = ...`
assignment at the first matching loop index in src/crud.py). -/
def set_first (p : Task → Bool) (x : Task) : List Task → List Task
  | [] => []
  | y :: ys => if p y then x :: ys else y :: set_first p x ys

/-- The `**updates` keyword arguments of `TaskStorage.update_task`: each field
is either absent or carries a new value. -/
structure TaskUpdates where
  title : Option String := none
  description : Option String := none
  completed : Option Bool := none
  priority : Option (Option TaskPriority) := none
  tags : Option (List String) := none
  due_date : Option (Option DateTime) := none
  recurrence : Option (Option String) := none

/-- `task_dict.update(updates)` followed by `updated_at = now` and
reconstruction (src/crud.py lines 150-153). -/
def apply_updates (t : Task) (u : TaskUpdates) (now : DateTime) : Task :=
  { t with
    title := u.title.getD t.title
    description := u.description.getD t.description
    completed := u.completed.getD t.completed
    priority := u.priority.getD t.priority
    tags := u.tags.getD t.tags
    due_date := u.due_date.getD t.due_date
    recurrence := u.recurrence.getD t.recurrence
    updated_at := now }

/-- `TaskStorage.update_task` (src/crud.py lines 137-156): rewrite the first
task with the given id, `None` when absent. -/
def update_task (tasks : List Task) (task_id : Nat) (u : TaskUpdates)
    (now : DateTime) : List Task × Option Task :=
  match tasks.find? (fun t => t.id == task_id) with
  | none => (tasks, none)
  | some t =>
    let t' := apply_updates t u now
    (set_first (fun x => x.id == task_id) t' tasks, some t')

/-- `TaskStorage.delete_task` (src/crud.py lines 158-173): drop every task
with the id, report whether the collection shrank. -/
def delete_task (tasks : List Task) (task_id : Nat) : List Task × Bool :=
  let remaining := tasks.filter (fun t => !(t.id == task_id))
  if remaining.length < tasks.length then (remaining, true) else (tasks, false)

/-- `TaskStorage.toggle_complete` (src/crud.py lines 198-241): flip the
completion flag of the first task with the given id; when the flip is into
completed and the task has a truthy `recurrence` and a `due_date` whose
advancement exists, append one successor task whose id is recomputed as
`max(t.id for t in all_tasks) + 1` over the in-memory list (overriding the
`get_next_id()` value assigned first, src lines 226 and 235-236). -/
def toggle_complete (all_tasks : List Task) (task_id : Nat) (now : DateTime) :
    List Task × Option Task :=
  match all_tasks.find? (fun t => t.id == task_id) with
  | none => (all_tasks, none)
  | some task =>
    let is_completed := !task.completed
    let updated_task := { task with completed := is_completed, updated_at := now }
    let tasks1 := set_first (fun t => t.id == task_id) updated_task all_tasks
    if is_completed && pyTruthy task.recurrence && task.due_date.isSome then
      match task.due_date.bind
          (fun due => calculate_next_due_date due (task.recurrence.getD "")) with
      | some next_due =>
        let current_max_id := maxId tasks1
        let new_task : Task :=
          { id := current_max_id + 1
            user_id := 1
            title := task.title
            description := task.description
            priority := task.priority
            tags := task.tags
            due_date := some next_due
            recurrence := task.recurrence
            created_at := now
            updated_at := now }
        (tasks1 ++ [new_task], some updated_task)
      | none => (tasks1, some updated_task)
    else (tasks1, some updated_task)

/-- `TaskStorage.filter_tasks` (src/crud.py lines 259-294): optional status,
priority and tag filters applied in sequence.  The guards are Python
truthiness (`if status:` etc.), the tag test lowercases the query tag and
checks plain membership in the stored tag list (`tag_lower in task.tags`),
and the priority test is `task.priority and task.priority.value == priority`. -/
def filter_tasks (tasks : List Task) (status priority tag : Option String) :
    List Task :=
  let tasks :=
    if pyTruthy status then
      if status = some "complete" then tasks.filter (fun t => t.completed)
      else if status = some "incomplete" then tasks.filter (fun t => !t.completed)
      else tasks
    else tasks
  let tasks :=
    if pyTruthy priority then
      tasks.filter (fun t =>
        match t.priority with
        | some p => p.value == priority.getD ""
        | none => false)
    else tasks
  let tasks :=
    if pyTruthy tag then
      tasks.filter (fun t => t.tags.contains (strLower (tag.getD "")))
    else tasks
  tasks

/-- Insert `x` into an ascending list, after every element that compares
`le` to it (so a later-inserted element lands after earlier equal ones). -/
def insert_le (le : α → α → Bool) (x : α) : List α → List α
  | [] => [x]
  | y :: ys => if le y x then y :: insert_le le x ys else x :: y :: ys

/-- Stable ascending sort by repeated insertion, processing the input left to
right: the model of Python's stable `sorted(..., key = ...)`. -/
def stable_sort (le : α → α → Bool) (l : List α) : List α :=
  l.foldl (fun acc x => insert_le le x acc) []

/-- Lexicographic order on naive datetimes (Python `datetime` comparison). -/
def dtLe (a b : DateTime) : Bool :=
  if a.year ≠ b.year then decide (a.year < b.year)
  else if a.month ≠ b.month then decide (a.month < b.month)
  else if a.day ≠ b.day then decide (a.day < b.day)
  else decide (a.timeOfDay ≤ b.timeOfDay)

/-- The earliest representable datetime, used only as the `Option.getD`
default below (never reached on tasks that have a due date). -/
def dtZero : DateTime := { year := 0, month := 0, day := 0, timeOfDay := 0 }

/-- Comparison of two tasks by the sort key `lambda t: t.due_date`. -/
def dueLe (a b : Task) : Bool :=
  dtLe (a.due_date.getD dtZero) (b.due_date.getD dtZero)

/-- The `priority_order` mapping `{"high": 0, "medium": 1, "low": 2, None: 3}`
of src/crud.py line 314. -/
def priority_order : Option TaskPriority → Nat
  | some .high => 0
  | some .medium => 1
  | some .low => 2
  | none => 3

/-- Comparison of two tasks by the priority sort key. -/
def prioLe (a b : Task) : Bool :=
  priority_order a.priority ≤ priority_order b.priority

/-- Comparison of two tasks by the sort key `lambda t: t.title.lower()`. -/
def titleLe (a b : Task) : Bool :=
  strLe (strLower a.title) (strLower b.title)

/-- `TaskStorage.sort_tasks` (src/crud.py lines 296-320): `"due-date"` puts
the tasks having a due date first, stably sorted ascending, then the tasks
without one in their original order; `"priority"` and `"title"` are stable
sorts by their keys; any other key returns the input unchanged. -/
def sort_tasks (tasks : List Task) (sort_by : String) : List Task :=
  if sort_by = "due-date" then
    let with_due := tasks.filter (fun t => t.due_date.isSome)
    let without_due := tasks.filter (fun t => !t.due_date.isSome)
    stable_sort dueLe with_due ++ without_due
  else if sort_by = "priority" then
    stable_sort prioLe tasks
  else if sort_by = "title" then
    stable_sort titleLe tasks
  else tasks

/-- A JSON-scalar value as it appears in a task snapshot handed to the audit
service. -/
inductive JValue where
  | null
  | str (s : String)
  | num (n : Int)
  | bool (b : Bool)
deriving DecidableEq, Repr

/-- A Python dict snapshot: association list with (in practice) unique keys. -/
abbrev Snapshot := List (String × JValue)

/-- `d.get(key)`: the value at the key, `None` when absent. -/
def snapGet (d : Snapshot) (key : String) : Option JValue :=
  match d.find? (fun kv => kv.1 == key) with
  | some kv => some kv.2
  | none => none

/-- The `changes` diff computed by `AuditService.log_task_updated`
(src/services/audit.py lines 162-168): for every key of
`set(old_data) | set(new_data)` whose looked-up values differ, an entry
`{key: {"old": old_val, "new": new_val}}`.  Set iteration order is
arbitrary in Python and immaterial to the dict produced; the union is
modelled as the deduplicated concatenation of the key lists. -/
def log_task_updated_changes (old_data new_data : Snapshot) :
    List (String × (Option JValue × Option JValue)) :=
  ((old_data.map Prod.fst ++ new_data.map Prod.fst).dedup).filterMap
    (fun key =>
      let old_val := snapGet old_data key
      let new_val := snapGet new_data key
      if old_val ≠ new_val then some (key, (old_val, new_val)) else none)

/-- `changes.get(key)` on the diff produced by `log_task_updated_changes`:
the `{"old": ..., "new": ...}` pair recorded for the field, if any. -/
def changes_get (changes : List (String × (Option JValue × Option JValue)))
    (key : String) : Option (Option JValue × Option JValue) :=
  (changes.find? (fun e => e.1 == key)).map (fun e => e.2)

/-- The validation constraints declared on the `Task` model fields
(src/models.py lines 48-49, matching `TaskCreate` in src/schemas/task.py):
a title of 1 to 200 characters and a description of at most 1000; the
priority string is normalized by `parse_priority` and never rejected. -/
def validate_new_task (title description priority : String) :
    Option (String × String × TaskPriority) :=
  if title.length < 1 then none
  else if title.length > 200 then none
  else if description.length > 1000 then none
  else some (title, description, parse_priority priority)

/-- `N` successive `add_task` calls (title only, model defaults elsewhere). -/
def add_many (now : DateTime) (titles : List String) (tasks : List Task) :
    List Task :=
  titles.foldl (fun acc title => (add_task acc now title "" none none none none).1) tasks

/-- A fixed sample instant standing for `datetime.now()` in the concrete
witnesses below. -/
def sampleDate : DateTime := { year := 2025, month := 1, day := 1, timeOfDay := 0 }

/-- Jan 31 2025 at 01:00, a concrete input for the recurrence rules. -/
def jan31 : DateTime := { year := 2025, month := 1, day := 31, timeOfDay := 3600 }

/-- Jun 30 2025, the due date of the sample recurring tasks. -/
def jun30 : DateTime := { year := 2025, month := 6, day := 30, timeOfDay := 7 }

/-- A pending daily-recurring task with a due date, as a concrete witness. -/
def recurringTask : Task :=
  { id := 1, user_id := 1, title := "Daily Task",
    recurrence := some "daily", due_date := some jun30,
    created_at := sampleDate, updated_at := sampleDate }

/-- A pending task with an unrecognized recurrence pattern and a due date. -/
def biweeklyTask : Task :=
  { id := 1, user_id := 1, title := "Biweekly Task",
    recurrence := some "biweekly", due_date := some jun30,
    created_at := sampleDate, updated_at := sampleDate }

/-- A pending one-shot task (no recurrence, no due date). -/
def pendingTask : Task :=
  { id := 1, user_id := 1, title := "Todo",
    created_at := sampleDate, updated_at := sampleDate }

/-- A completed task carrying a `completed_at` stamp. -/
def doneTask : Task :=
  { id := 1, user_id := 1, title := "Done", completed := true,
    completed_at := some sampleDate,
    created_at := sampleDate, updated_at := sampleDate }

/-- A task whose stored tag `"Work"` differs from its lowercase form. -/
def workTagTask : Task :=
  { id := 1, user_id := 1, title := "Tagged", tags := ["Work"],
    created_at := sampleDate, updated_at := sampleDate }

/-- A second pending task, with id 2. -/
def secondTask : Task :=
  { id := 2, user_id := 1, title := "Second",
    created_at := sampleDate, updated_at := sampleDate }

/-- Spec-side status predicate of `filter_tasks`: optional, `"complete"` and
`"incomplete"` select on the flag, anything else constrains nothing. -/
def status_pred (status : Option String) (t : Task) : Bool :=
  match status with
  | none => true
  | some s =>
    if s = "complete" then t.completed
    else if s = "incomplete" then !t.completed
    else true

/-- Spec-side priority predicate of `filter_tasks`: optional; a nonempty
query matches exactly the tasks whose priority value string equals it. -/
def prio_pred (priority : Option String) (t : Task) : Bool :=
  match priority with
  | none => true
  | some s =>
    if s = "" then true
    else
      match t.priority with
      | some p => p.value == s
      | none => false

/-- Spec-side tag predicate of `filter_tasks` as the code implements it: a
nonempty query matches exactly the tasks whose stored tag list contains the
lowercased query verbatim (the stored tags themselves are not folded). -/
def tag_pred (tag : Option String) (t : Task) : Bool :=
  match tag with
  | none => true
  | some g => if g = "" then true else t.tags.contains (strLower g)

/-! ## Helper lemmas -/

theorem nextDay_timeOfDay (d : DateTime) : (nextDay d).timeOfDay = d.timeOfDay := by
  unfold nextDay; split_ifs <;> rfl

theorem addDays_timeOfDay (n : Nat) : ∀ d : DateTime,
    (addDays d n).timeOfDay = d.timeOfDay := by
  induction n with
  | zero => intro d; rfl
  | succ n ih => intro d; rw [addDays, ih, nextDay_timeOfDay]

theorem le_maxId {t : Task} : ∀ {l : List Task}, t ∈ l → t.id ≤ maxId l := by
  intro l
  induction l with
  | nil => intro h; cases h
  | cons x xs ih =>
    intro h
    rcases List.mem_cons.mp h with h | h
    · subst h; exact Nat.le_max_left _ _
    · exact Nat.le_trans (ih h) (Nat.le_max_right _ _)

theorem maxId_append (l₁ l₂ : List Task) :
    maxId (l₁ ++ l₂) = max (maxId l₁) (maxId l₂) := by
  induction l₁ with
  | nil => simp [maxId]
  | cons x xs ih => simp [maxId, ih, Nat.max_assoc]

theorem maxId_set_first {p : Task → Bool} {x : Task} :
    ∀ {l : List Task}, (∀ y, p y = true → x.id = y.id) →
      maxId (set_first p x l) = maxId l := by
  intro l
  induction l with
  | nil => intro _; rfl
  | cons y ys ih =>
    intro h
    by_cases hy : p y = true
    · simp [set_first, hy, maxId, h y hy]
    · simp [set_first, hy, maxId, ih h]

theorem set_first_length {p : Task → Bool} {x : Task} :
    ∀ l : List Task, (set_first p x l).length = l.length := by
  intro l
  induction l with
  | nil => rfl
  | cons y ys ih =>
    by_cases hy : p y = true <;> simp [set_first, hy, ih]

theorem get_next_id_eq (tasks : List Task) :
    get_next_id tasks = maxId tasks + 1 := by
  cases tasks with
  | nil => rfl
  | cons t ts => rfl

theorem insert_le_perm (le : α → α → Bool) (x : α) :
    ∀ l : List α, (insert_le le x l).Perm (x :: l) := by
  intro l
  induction l with
  | nil => exact List.Perm.refl _
  | cons y ys ih =>
    by_cases h : le y x = true
    · simp only [insert_le, if_pos h]
      exact (ih.cons y).trans (List.Perm.swap x y ys)
    · simp only [insert_le, if_neg h]
      exact List.Perm.refl _

theorem foldl_insert_perm (le : α → α → Bool) :
    ∀ (l acc : List α),
      (l.foldl (fun acc x => insert_le le x acc) acc).Perm (acc ++ l) := by
  intro l
  induction l with
  | nil => intro acc; simp
  | cons x xs ih =>
    intro acc
    simp only [List.foldl_cons]
    refine (ih (insert_le le x acc)).trans ?_
    have h1 : (insert_le le x acc ++ xs).Perm ((x :: acc) ++ xs) :=
      (insert_le_perm le x acc).append_right xs
    exact h1.trans List.perm_middle.symm

theorem stable_sort_perm (le : α → α → Bool) (l : List α) :
    (stable_sort le l).Perm l := by
  simpa using foldl_insert_perm le l []

theorem insert_le_pairwise (le : α → α → Bool)
    (htotal : ∀ a b, le a b = true ∨ le b a = true)
    (htrans : ∀ a b c, le a b = true → le b c = true → le a c = true)
    (x : α) :
    ∀ {l : List α}, l.Pairwise (fun a b => le a b = true) →
      (insert_le le x l).Pairwise (fun a b => le a b = true) := by
  intro l
  induction l with
  | nil => intro _; exact List.pairwise_singleton _ _
  | cons y ys ih =>
    intro h
    rcases List.pairwise_cons.mp h with ⟨hy, hys⟩
    by_cases hle : le y x = true
    · simp only [insert_le, if_pos hle]
      refine List.pairwise_cons.mpr ⟨?_, ih hys⟩
      intro z hz
      rcases List.mem_cons.mp ((insert_le_perm le x ys).mem_iff.mp hz) with rfl | hz'
      · exact hle
      · exact hy z hz'
    · have hxy : le x y = true := (htotal x y).resolve_right hle
      simp only [insert_le, if_neg hle]
      refine List.pairwise_cons.mpr ⟨?_, h⟩
      intro z hz
      rcases List.mem_cons.mp hz with rfl | hz'
      · exact hxy
      · exact htrans x y z hxy (hy z hz')

theorem foldl_insert_pairwise (le : α → α → Bool)
    (htotal : ∀ a b, le a b = true ∨ le b a = true)
    (htrans : ∀ a b c, le a b = true → le b c = true → le a c = true) :
    ∀ (l acc : List α), acc.Pairwise (fun a b => le a b = true) →
      (l.foldl (fun acc x => insert_le le x acc) acc).Pairwise
        (fun a b => le a b = true) := by
  intro l
  induction l with
  | nil => intro acc hacc; exact hacc
  | cons x xs ih =>
    intro acc hacc
    simp only [List.foldl_cons]
    exact ih _ (insert_le_pairwise le htotal htrans x hacc)

theorem stable_sort_pairwise (le : α → α → Bool)
    (htotal : ∀ a b, le a b = true ∨ le b a = true)
    (htrans : ∀ a b c, le a b = true → le b c = true → le a c = true)
    (l : List α) :
    (stable_sort le l).Pairwise (fun a b => le a b = true) :=
  foldl_insert_pairwise le htotal htrans l [] (List.Pairwise.nil)

theorem insert_le_filter_neg (le : α → α → Bool) (P : α → Bool) (x : α)
    (hx : P x = false) :
    ∀ l : List α, (insert_le le x l).filter P = l.filter P := by
  intro l
  induction l with
  | nil => simp [insert_le, List.filter_cons, hx]
  | cons y ys ih =>
    by_cases h : le y x = true
    · simp only [insert_le, if_pos h]
      simp [List.filter_cons, ih]
    · simp only [insert_le, if_neg h]
      simp [List.filter_cons, hx]

theorem insert_le_filter_pos (le : α → α → Bool) (P : α → Bool)
    (htrans : ∀ a b c, le a b = true → le b c = true → le a c = true)
    (x : α) (hx : P x = true)
    (hPle : ∀ a b, P a = true → P b = true → le a b = true) :
    ∀ {l : List α}, l.Pairwise (fun a b => le a b = true) →
      (insert_le le x l).filter P = l.filter P ++ [x] := by
  intro l
  induction l with
  | nil => simp [insert_le, List.filter_cons, hx]
  | cons y ys ih =>
    intro h
    rcases List.pairwise_cons.mp h with ⟨hy, hys⟩
    by_cases hle : le y x = true
    · simp only [insert_le, if_pos hle]
      by_cases hPy : P y = true
      · simp [List.filter_cons, hPy, ih hys]
      · simp [List.filter_cons, hPy, ih hys]
    · simp only [insert_le, if_neg hle]
      have hPy : P y = false := by
        rcases Bool.eq_false_or_eq_true (P y) with h0 | h1
        · exact absurd (hPle y x h0 hx) hle
        · exact h1
      have hPz : ∀ z ∈ ys, ¬ P z = true := by
        intro z hz hPzT
        exact hle (htrans y z x (hy z hz) (hPle z x hPzT hx))
      have hnil : (y :: ys).filter P = [] := by
        rw [List.filter_eq_nil_iff]
        intro a ha
        rcases List.mem_cons.mp ha with rfl | ha'
        · simp [hPy]
        · exact hPz a ha'
      simp [List.filter_cons, hx, hnil, List.filter_eq_nil_iff.mp hnil y (by simp),
        hPy]

theorem foldl_insert_filter (le : α → α → Bool) (P : α → Bool)
    (htotal : ∀ a b, le a b = true ∨ le b a = true)
    (htrans : ∀ a b c, le a b = true → le b c = true → le a c = true)
    (hPle : ∀ a b, P a = true → P b = true → le a b = true) :
    ∀ (l acc : List α), acc.Pairwise (fun a b => le a b = true) →
      (l.foldl (fun acc x => insert_le le x acc) acc).filter P
        = acc.filter P ++ l.filter P := by
  intro l
  induction l with
  | nil => intro acc _; simp
  | cons x xs ih =>
    intro acc hacc
    simp only [List.foldl_cons]
    rw [ih _ (insert_le_pairwise le htotal htrans x hacc)]
    by_cases hP : P x = true
    · rw [insert_le_filter_pos le P htrans x hP hPle hacc]
      simp [List.filter_cons, hP, List.append_assoc]
    · rw [insert_le_filter_neg le P x (by simpa using hP)]
      simp [List.filter_cons, hP]

theorem stable_sort_filter (le : α → α → Bool) (P : α → Bool)
    (htotal : ∀ a b, le a b = true ∨ le b a = true)
    (htrans : ∀ a b c, le a b = true → le b c = true → le a c = true)
    (hPle : ∀ a b, P a = true → P b = true → le a b = true)
    (l : List α) :
    (stable_sort le l).filter P = l.filter P := by
  simpa using foldl_insert_filter le P htotal htrans hPle l [] List.Pairwise.nil

theorem dtLe_refl (a : DateTime) : dtLe a a = true := by
  simp [dtLe]

theorem dtLe_total (a b : DateTime) : dtLe a b = true ∨ dtLe b a = true := by
  unfold dtLe
  split_ifs <;> simp only [decide_eq_true_eq] <;> omega

theorem dtLe_trans (a b c : DateTime) (h1 : dtLe a b = true)
    (h2 : dtLe b c = true) : dtLe a c = true := by
  unfold dtLe at *
  split_ifs at * <;> simp only [decide_eq_true_eq] at * <;> omega

theorem dueLe_total (a b : Task) : dueLe a b = true ∨ dueLe b a = true :=
  dtLe_total _ _

theorem dueLe_trans (a b c : Task) (h1 : dueLe a b = true)
    (h2 : dueLe b c = true) : dueLe a c = true :=
  dtLe_trans _ _ _ h1 h2

theorem add_many_ids (now : DateTime) :
    ∀ (titles : List String) (acc : List Task) (k : Nat),
      acc.map (fun t => t.id) = List.range' 1 k → maxId acc = k →
      (add_many now titles acc).map (fun t => t.id)
        = List.range' 1 (k + titles.length) := by
  intro titles
  induction titles with
  | nil => intro acc k h1 h2; simpa [add_many] using h1
  | cons title rest ih =>
    intro acc k h1 h2
    have hid : (add_task acc now title "" none none none none).2.id = k + 1 := by
      show get_next_id acc = k + 1
      rw [get_next_id_eq, h2]
    have hstep : (add_task acc now title "" none none none none).1
        = acc ++ [(add_task acc now title "" none none none none).2] := rfl
    have h1' : ((add_task acc now title "" none none none none).1).map
        (fun t => t.id) = List.range' 1 (k + 1) := by
      rw [hstep, List.map_append, h1, List.range'_concat]
      simp [hid]
      omega
    have h2' : maxId ((add_task acc now title "" none none none none).1)
        = k + 1 := by
      rw [hstep, maxId_append, h2]
      simp [maxId, hid]
    have hrec := ih ((add_task acc now title "" none none none none).1)
      (k + 1) h1' h2'
    simp only [add_many, List.foldl_cons] at hrec ⊢
    rw [hrec]
    congr 1
    simp only [List.length_cons]
    omega

theorem calc_unrecognized_none (d : DateTime) (pat : String)
    (h1 : pat ≠ "daily") (h2 : pat ≠ "weekly") (h3 : pat ≠ "monthly") :
    calculate_next_due_date d pat = none := by
  unfold calculate_next_due_date
  rw [if_neg h1, if_neg h2, if_neg h3]

/-! ## Claim theorems -/

/-- C2: for every valid due date `d`, the next-due-date calculation returns
`d` plus exactly 1 day for `"daily"` and `d` plus exactly 7 days for
`"weekly"`; for `"monthly"` it returns the same day-of-month in the next
calendar month, the year incremented exactly when the current month is
December, with the day clamped to the target month's last day; the time of
day is preserved exactly in all three cases (concrete instances: Jan 31 2025
→ Feb 28 2025, Jan 31 2024 → Feb 29 2024, Dec 15 2025 → Jan 15 2026). -/
theorem next_due_date_spec (d : DateTime) (hd : d.Valid) :
    (calculate_next_due_date d "daily" = some (addDays d 1)
      ∧ (addDays d 1).timeOfDay = d.timeOfDay)
  ∧ (calculate_next_due_date d "weekly" = some (addDays d 7)
      ∧ (addDays d 7).timeOfDay = d.timeOfDay)
  ∧ (∃ e, calculate_next_due_date d "monthly" = some e
      ∧ e.month = (if d.month = 12 then 1 else d.month + 1)
      ∧ e.year = (if d.month = 12 then d.year + 1 else d.year)
      ∧ e.day = min d.day (daysInMonth e.year e.month)
      ∧ e.timeOfDay = d.timeOfDay)
  ∧ calculate_next_due_date
      { year := 2025, month := 1, day := 31, timeOfDay := 3600 } "monthly"
      = some { year := 2025, month := 2, day := 28, timeOfDay := 3600 }
  ∧ calculate_next_due_date
      { year := 2024, month := 1, day := 31, timeOfDay := 3600 } "monthly"
      = some { year := 2024, month := 2, day := 29, timeOfDay := 3600 }
  ∧ calculate_next_due_date
      { year := 2025, month := 12, day := 15, timeOfDay := 999 } "monthly"
      = some { year := 2026, month := 1, day := 15, timeOfDay := 999 } := by
  obtain ⟨hm1, hm2, _, _⟩ := hd
  refine ⟨⟨by simp [calculate_next_due_date], addDays_timeOfDay 1 d⟩,
    ⟨by simp [calculate_next_due_date], addDays_timeOfDay 7 d⟩,
    ⟨{ d with
        year := d.year + d.month / 12
        month := d.month % 12 + 1
        day := min d.day
          (daysInMonth (d.year + d.month / 12) (d.month % 12 + 1)) },
      by simp [calculate_next_due_date], ?_, ?_, rfl, rfl⟩,
    by decide, by decide, by decide⟩
  · show d.month % 12 + 1 = _
    split_ifs with h <;> omega
  · show d.year + d.month / 12 = _
    split_ifs with h <;> omega

/-- C3: for every due date and every pattern other than `"daily"`,
`"weekly"` and `"monthly"`, the next-due-date calculation returns `none`
rather than an error, and completing a task that carries such a pattern and
a due date rewrites the toggled task in place without appending any
successor. -/
theorem unrecognized_pattern_spec :
    (∀ (d : DateTime) (pat : String), pat ≠ "daily" → pat ≠ "weekly" →
      pat ≠ "monthly" → calculate_next_due_date d pat = none)
  ∧ (∀ (tasks : List Task) (tid : Nat) (now : DateTime) (task : Task)
      (pat : String) (due : DateTime),
      tasks.find? (fun t => t.id == tid) = some task →
      task.completed = false → task.recurrence = some pat →
      pat ≠ "daily" → pat ≠ "weekly" → pat ≠ "monthly" →
      task.due_date = some due →
      (toggle_complete tasks tid now).1
          = set_first (fun t => t.id == tid)
              { task with completed := true, updated_at := now } tasks
        ∧ (toggle_complete tasks tid now).1.length = tasks.length) := by
  constructor
  · exact fun d pat h1 h2 h3 => calc_unrecognized_none d pat h1 h2 h3
  · intro tasks tid now task pat due hfind hc hr h1 h2 h3 hd
    have hcalc : calculate_next_due_date due pat = none :=
      calc_unrecognized_none due pat h1 h2 h3
    have hres : (toggle_complete tasks tid now).1
        = set_first (fun t => t.id == tid)
            { task with completed := true, updated_at := now } tasks := by
      unfold toggle_complete
      rw [hfind]
      simp only [hc, hr, hd, Bool.not_false, pyTruthy, Option.isSome_some,
        Option.some_bind, Option.getD_some, hcalc, Bool.true_and, Bool.and_true]
      split_ifs <;> rfl
    exact ⟨hres, by rw [hres, set_first_length]⟩

/-- C1: toggling a pending task that carries a recognized recurrence pattern
and a due date appends exactly one successor equal to the completed task in
title, description, priority, tags and recurrence, with `due_date` the
Recurrence Calculator's advancement of the original due date, not completed,
and with an id strictly greater than every id present at that moment; a
toggle to incomplete, or a task lacking a recurrence or a due date, appends
nothing. -/
theorem toggle_complete_recurrence_spec
    (tasks : List Task) (tid : Nat) (now : DateTime) (task : Task)
    (hfind : tasks.find? (fun t => t.id == tid) = some task) :
    (task.completed = true →
      toggle_complete tasks tid now
        = (set_first (fun t => t.id == tid)
            { task with completed := false, updated_at := now } tasks,
           some { task with completed := false, updated_at := now })
      ∧ (toggle_complete tasks tid now).1.length = tasks.length)
  ∧ (task.completed = false → task.recurrence = none →
      (toggle_complete tasks tid now).1
        = set_first (fun t => t.id == tid)
            { task with completed := true, updated_at := now } tasks
      ∧ (toggle_complete tasks tid now).1.length = tasks.length)
  ∧ (task.completed = false → task.due_date = none →
      (toggle_complete tasks tid now).1
        = set_first (fun t => t.id == tid)
            { task with completed := true, updated_at := now } tasks
      ∧ (toggle_complete tasks tid now).1.length = tasks.length)
  ∧ (∀ r due, task.completed = false → task.recurrence = some r →
      (r = "daily" ∨ r = "weekly" ∨ r = "monthly") → task.due_date = some due →
      ∃ nd, calculate_next_due_date due r = some nd
        ∧ (toggle_complete tasks tid now).1
            = set_first (fun t => t.id == tid)
                { task with completed := true, updated_at := now } tasks
              ++ [{ id := maxId tasks + 1, user_id := 1, title := task.title,
                    description := task.description, status := "pending",
                    priority := task.priority, tags := task.tags,
                    completed := false, due_date := some nd,
                    recurrence := some r, created_at := now, updated_at := now,
                    completed_at := none }]
        ∧ (toggle_complete tasks tid now).1.length = tasks.length + 1
        ∧ ∀ t ∈ tasks, t.id < maxId tasks + 1) := by
  have hpid : task.id = tid := by simpa using List.find?_some hfind
  refine ⟨?_, ?_, ?_, ?_⟩
  · intro hc
    have heq : toggle_complete tasks tid now
        = (set_first (fun t => t.id == tid)
            { task with completed := false, updated_at := now } tasks,
           some { task with completed := false, updated_at := now }) := by
      unfold toggle_complete
      rw [hfind]
      simp only [hc, Bool.not_true, Bool.false_and]
      rw [if_neg (by simp)]
    exact ⟨heq, by rw [heq, set_first_length]⟩
  · intro hc hr
    have heq : (toggle_complete tasks tid now).1
        = set_first (fun t => t.id == tid)
            { task with completed := true, updated_at := now } tasks := by
      unfold toggle_complete
      rw [hfind]
      simp only [hc, hr, Bool.not_false, pyTruthy, Bool.true_and,
        Bool.false_and]
      rw [if_neg (by simp)]
    exact ⟨heq, by rw [heq, set_first_length]⟩
  · intro hc hd
    have heq : (toggle_complete tasks tid now).1
        = set_first (fun t => t.id == tid)
            { task with completed := true, updated_at := now } tasks := by
      unfold toggle_complete
      rw [hfind]
      simp only [hc, hd, Bool.not_false, Option.isSome_none, Bool.and_false]
      rw [if_neg (by simp)]
    exact ⟨heq, by rw [heq, set_first_length]⟩
  · intro r due hc hr hr3 hd
    have hnd : ∃ nd, calculate_next_due_date due r = some nd := by
      rcases hr3 with rfl | rfl | rfl
      · exact ⟨addDays due 1, by simp [calculate_next_due_date]⟩
      · exact ⟨addDays due 7, by simp [calculate_next_due_date]⟩
      · exact ⟨{ due with
            year := due.year + due.month / 12
            month := due.month % 12 + 1
            day := min due.day
              (daysInMonth (due.year + due.month / 12) (due.month % 12 + 1)) },
          by simp [calculate_next_due_date]⟩
    obtain ⟨nd, hnd⟩ := hnd
    have hne : (!(r == "")) = true := by
      rcases hr3 with rfl | rfl | rfl <;> decide
    have heq : (toggle_complete tasks tid now).1
        = set_first (fun t => t.id == tid)
            { task with completed := true, updated_at := now } tasks
          ++ [{ id := maxId tasks + 1, user_id := 1, title := task.title,
                description := task.description, status := "pending",
                priority := task.priority, tags := task.tags,
                completed := false, due_date := some nd,
                recurrence := some r, created_at := now, updated_at := now,
                completed_at := none }] := by
      unfold toggle_complete
      rw [hfind]
      simp only [hc, hr, hd, Bool.not_false, pyTruthy, hne, Option.isSome_some,
        Option.some_bind, Option.getD_some, hnd, Bool.true_and, Bool.and_true]
      rw [if_pos trivial]
      have hidpres2 : ∀ y : Task, (y.id == tid) = true →
          ({ id := task.id, user_id := task.user_id, title := task.title,
             description := task.description, status := task.status,
             priority := task.priority, tags := task.tags, completed := true,
             due_date := some due, recurrence := some r,
             created_at := task.created_at, updated_at := now,
             completed_at := task.completed_at } : Task).id = y.id := by
        intro y hy
        have hy' : y.id = tid := by simpa using hy
        simp [hpid, hy']
      rw [maxId_set_first hidpres2]
    refine ⟨nd, hnd, heq, ?_, fun t ht => Nat.lt_succ_of_le (le_maxId ht)⟩
    rw [heq]
    simp [set_first_length]

/-- C5 evaluation: `toggle_complete` never writes `completed_at`.  Toggling
the pending sample task into completed leaves `completed_at = none`
(the spec requires a stamp there), toggling the completed sample task out
leaves its old stamp in place (the spec requires it cleared), and in general
the returned task keeps exactly the pre-toggle `completed_at`. -/
theorem toggle_completed_at_eval :
    ((toggle_complete [pendingTask] 1 sampleDate).2.map
        (fun u => (u.completed, u.completed_at)) = some (true, none))
  ∧ ((toggle_complete [doneTask] 1 sampleDate).2.map
        (fun u => (u.completed, u.completed_at)) = some (false, some sampleDate))
  ∧ (∀ (tasks : List Task) (tid : Nat) (now : DateTime) (task : Task),
      tasks.find? (fun t => t.id == tid) = some task →
      (toggle_complete tasks tid now).2.map (fun u => u.completed_at)
        = some task.completed_at) := by
  refine ⟨by decide, by decide, ?_⟩
  intro tasks tid now task hfind
  unfold toggle_complete
  rw [hfind]
  dsimp only
  split_ifs
  · split <;> rfl
  · rfl

/-- C5 witness for the general clause of `toggle_completed_at_eval`. -/
theorem toggle_completed_at_eval_witness :
    ([pendingTask].find? (fun t => t.id == 1) = some pendingTask)
  ∧ (toggle_complete [pendingTask] 1 sampleDate).2.map
      (fun u => u.completed_at) = some pendingTask.completed_at :=
  ⟨by decide, (toggle_completed_at_eval.2.2) [pendingTask] 1 sampleDate
    pendingTask (by decide)⟩

/-- C6: loading a malformed payload raises the corrupt-storage `ValueError`
and never yields a task list (in particular not an empty one), while every
missing-id condition is reported as a value: `get_task_by_id` returns
`none`, `update_task` and `toggle_complete` return the collection unchanged
with `none`, and `delete_task` returns it unchanged with `false`. -/
theorem error_channel_spec (raw : String) (tasks : List Task) (tid : Nat)
    (u : TaskUpdates) (now : DateTime) (h : ∀ t ∈ tasks, t.id ≠ tid) :
    (∃ msg, load_tasks (StoredPayload.malformed raw) = Except.error msg)
  ∧ (∀ result, load_tasks (StoredPayload.malformed raw) ≠ Except.ok result)
  ∧ get_task_by_id tasks tid = none
  ∧ update_task tasks tid u now = (tasks, none)
  ∧ toggle_complete tasks tid now = (tasks, none)
  ∧ delete_task tasks tid = (tasks, false) := by
  have hfind : tasks.find? (fun t => t.id == tid) = none :=
    List.find?_eq_none.mpr (fun t ht => by simpa using h t ht)
  refine ⟨⟨_, rfl⟩, ?_, ?_, ?_, ?_, ?_⟩
  · intro result hcontra
    simp [load_tasks] at hcontra
  · simp [get_task_by_id, hfind]
  · simp [update_task, hfind]
  · unfold toggle_complete
    rw [hfind]
  · unfold delete_task
    have hself : tasks.filter (fun t => !(t.id == tid)) = tasks :=
      List.filter_eq_self.mpr (fun t ht => by simpa using h t ht)
    simp [hself]

/-- C6 witness: a one-task store queried at a missing id. -/
theorem error_channel_spec_witness :
    (∀ t ∈ [pendingTask], t.id ≠ 99)
  ∧ ((∃ msg, load_tasks (StoredPayload.malformed "not json") = Except.error msg)
      ∧ (∀ result,
          load_tasks (StoredPayload.malformed "not json") ≠ Except.ok result)
      ∧ get_task_by_id [pendingTask] 99 = none
      ∧ update_task [pendingTask] 99 {} sampleDate = ([pendingTask], none)
      ∧ toggle_complete [pendingTask] 99 sampleDate = ([pendingTask], none)
      ∧ delete_task [pendingTask] 99 = ([pendingTask], false)) :=
  ⟨by decide, error_channel_spec "not json" [pendingTask] 99 {} sampleDate (by decide)⟩

/-- C8: ids are assigned as `max(existing ids) + 1` with `1` on an empty
store (`maxId [] = 0`): adding `N` tasks to an empty store yields ids
`1..N` in insertion order, and after any delete the next id is the maximum
id of the live collection plus one — strictly greater than every live id,
and different from the deleted id whenever a live id exceeds it. -/
theorem id_assignment_spec :
    (∀ (now : DateTime) (titles : List String),
      (add_many now titles []).map (fun t => t.id)
        = List.range' 1 titles.length)
  ∧ (∀ tasks : List Task, get_next_id tasks = maxId tasks + 1)
  ∧ (∀ (tasks : List Task) (tid : Nat) (now : DateTime) (title : String),
      (add_task (delete_task tasks tid).1 now title "" none none none none).2.id
          = maxId (delete_task tasks tid).1 + 1
      ∧ (∀ t ∈ (delete_task tasks tid).1,
          t.id < (add_task (delete_task tasks tid).1 now
            title "" none none none none).2.id)
      ∧ ((∃ t ∈ (delete_task tasks tid).1, tid < t.id) →
          (add_task (delete_task tasks tid).1 now
            title "" none none none none).2.id ≠ tid)) := by
  refine ⟨?_, get_next_id_eq, ?_⟩
  · intro now titles
    simpa using add_many_ids now titles [] 0 rfl rfl
  · intro tasks tid now title
    have hid : (add_task (delete_task tasks tid).1 now
        title "" none none none none).2.id
        = maxId (delete_task tasks tid).1 + 1 :=
      get_next_id_eq (delete_task tasks tid).1
    refine ⟨hid, ?_, ?_⟩
    · intro t ht
      rw [hid]
      exact Nat.lt_succ_of_le (le_maxId ht)
    · rintro ⟨t, ht, htid⟩
      rw [hid]
      have hle : t.id ≤ maxId (delete_task tasks tid).1 := le_maxId ht
      omega

/-- C4 counterexample: `"HIGH"` is none of `"high"`, `"medium"`, `"low"`,
yet `parse_priority` stores `high` for it, not the default `medium` — the
validator lowercases before the enum lookup. -/
theorem parse_priority_counterexample :
    ("HIGH" ≠ "high" ∧ "HIGH" ≠ "medium" ∧ "HIGH" ≠ "low")
  ∧ parse_priority "HIGH" = TaskPriority.high
  ∧ TaskPriority.high ≠ TaskPriority.medium := by
  refine ⟨by decide, by decide, by decide⟩

/-- C4 (amended): constructing or updating a task never fails on a priority
string — an input whose lowercasing is not `"high"`, `"medium"` or `"low"`
coerces to the default `medium`, while an input matching one of them
case-insensitively parses to that priority; validation accepts exactly the
structurally valid inputs (nonempty title of at most 200 characters,
description of at most 1000), independently of the priority string, and
stores the coerced priority. -/
theorem parse_priority_amended :
    (∀ s : String, strLower s ≠ "high" → strLower s ≠ "medium" →
      strLower s ≠ "low" → parse_priority s = TaskPriority.medium)
  ∧ (∀ s : String, strLower s = "high" → parse_priority s = TaskPriority.high)
  ∧ (∀ s : String, strLower s = "medium" →
      parse_priority s = TaskPriority.medium)
  ∧ (∀ s : String, strLower s = "low" → parse_priority s = TaskPriority.low)
  ∧ (∀ title description priority : String,
      (validate_new_task title description priority).isSome
        ↔ (1 ≤ title.length ∧ title.length ≤ 200
            ∧ description.length ≤ 1000))
  ∧ (∀ title description priority t d p,
      validate_new_task title description priority = some (t, d, p) →
      t = title ∧ d = description ∧ p = parse_priority priority) := by
  refine ⟨?_, ?_, ?_, ?_, ?_, ?_⟩
  · intro s h1 h2 h3
    unfold parse_priority taskPriorityOfValue
    rw [if_neg h1, if_neg h2, if_neg h3]
  · intro s h
    unfold parse_priority taskPriorityOfValue
    rw [if_pos h]
  · intro s h
    unfold parse_priority taskPriorityOfValue
    rw [h]
    decide
  · intro s h
    unfold parse_priority taskPriorityOfValue
    rw [h]
    decide
  · intro title description priority
    unfold validate_new_task
    split_ifs with h1 h2 h3 <;> simp <;> omega
  · intro title description priority t d p h
    unfold validate_new_task at h
    split_ifs at h
    simp only [Option.some_inj, Prod.mk.injEq] at h
    obtain ⟨rfl, rfl, rfl⟩ := h
    exact ⟨rfl, rfl, rfl⟩

/-- C7 counterexample: the task tagged `["Work"]` carries a stored tag equal
to the query `"work"` case-insensitively, yet the filter with tag query
`"work"` rejects it — only the query side is lowercased. -/
theorem filter_tag_counterexample :
    (∃ g ∈ workTagTask.tags, strLower g = "work")
  ∧ filter_tasks [workTagTask] none none (some "work") = [] := by
  constructor
  · exact ⟨"Work", by decide, by decide⟩
  · decide

theorem status_stage (l : List Task) (status : Option String) :
    (if pyTruthy status then
        if status = some "complete" then l.filter (fun t => t.completed)
        else if status = some "incomplete" then l.filter (fun t => !t.completed)
        else l
      else l)
      = l.filter (status_pred status) := by
  cases status with
  | none =>
    exact (List.filter_eq_self.mpr (fun t _ => by simp [status_pred])).symm
  | some s =>
    by_cases he : s = ""
    · subst he
      rw [if_neg (by decide)]
      exact (List.filter_eq_self.mpr (fun t _ => by simp [status_pred])).symm
    · have hne : pyTruthy (some s) = true := by simp [pyTruthy, he]
      rw [if_pos hne]
      split_ifs with h1 h2
      · exact List.filter_congr
          (fun t _ => by simp [status_pred, Option.some_inj.mp h1])
      · exact List.filter_congr
          (fun t _ => by simp [status_pred, Option.some_inj.mp h2])
      · have hs1 : s ≠ "complete" := fun hcon => h1 (by rw [hcon])
        have hs2 : s ≠ "incomplete" := fun hcon => h2 (by rw [hcon])
        exact (List.filter_eq_self.mpr
          (fun t _ => by simp [status_pred, hs1, hs2])).symm

theorem prio_stage (l : List Task) (priority : Option String) :
    (if pyTruthy priority then
        l.filter (fun t =>
          match t.priority with
          | some p => p.value == priority.getD ""
          | none => false)
      else l)
      = l.filter (prio_pred priority) := by
  cases priority with
  | none =>
    exact (List.filter_eq_self.mpr (fun t _ => by simp [prio_pred])).symm
  | some s =>
    by_cases he : s = ""
    · subst he
      rw [if_neg (by decide)]
      exact (List.filter_eq_self.mpr (fun t _ => by simp [prio_pred])).symm
    · have hne : pyTruthy (some s) = true := by simp [pyTruthy, he]
      rw [if_pos hne]
      exact List.filter_congr (fun t _ => by simp [prio_pred, he])

theorem tag_stage (l : List Task) (tag : Option String) :
    (if pyTruthy tag then
        l.filter (fun t => t.tags.contains (strLower (tag.getD "")))
      else l)
      = l.filter (tag_pred tag) := by
  cases tag with
  | none =>
    exact (List.filter_eq_self.mpr (fun t _ => by simp [tag_pred])).symm
  | some g =>
    by_cases he : g = ""
    · subst he
      rw [if_neg (by decide)]
      exact (List.filter_eq_self.mpr (fun t _ => by simp [tag_pred])).symm
    · have hne : pyTruthy (some g) = true := by simp [pyTruthy, he]
      rw [if_pos hne]
      exact List.filter_congr (fun t _ => by simp [tag_pred, he])

/-- C7 (amended): the three `filter_tasks` predicates are each independently
optional, compose by logical AND, and preserve the input order (the result
is one `List.filter` of the input); the tag predicate matches exactly when
the lowercased query tag occurs verbatim among the task's stored tags — the
stored side is not case-folded, so `"Work"` matches a task tagged
`["work"]` but `"work"` does not match one tagged `["Work"]`. -/
theorem filter_tasks_amended (tasks : List Task)
    (status priority tag : Option String) :
    filter_tasks tasks status priority tag
      = tasks.filter (fun t =>
          status_pred status t && prio_pred priority t && tag_pred tag t) := by
  unfold filter_tasks
  dsimp only
  rw [status_stage, prio_stage, tag_stage, List.filter_filter,
    List.filter_filter]
  refine List.filter_congr ?_
  intro t _
  cases status_pred status t <;> cases prio_pred priority t <;>
    cases tag_pred tag t <;> rfl

/-- C9: `sort_tasks` with `"due-date"` returns the tasks having a due date
first — a permutation of them sorted ascending by due date, stable among
equal dates (for each date the filter at that date is unchanged) — followed
by the tasks without a due date in their original relative order; any key
other than `"due-date"`, `"priority"` and `"title"` returns the input
unchanged. -/
theorem sort_tasks_spec (tasks : List Task) (key : String) :
    (sort_tasks tasks "due-date"
        = stable_sort dueLe (tasks.filter (fun t => t.due_date.isSome))
          ++ tasks.filter (fun t => !t.due_date.isSome))
  ∧ (stable_sort dueLe (tasks.filter (fun t => t.due_date.isSome))).Perm
      (tasks.filter (fun t => t.due_date.isSome))
  ∧ (stable_sort dueLe (tasks.filter (fun t => t.due_date.isSome))).Pairwise
      (fun a b => dueLe a b = true)
  ∧ (∀ d : DateTime,
      (stable_sort dueLe (tasks.filter (fun t => t.due_date.isSome))).filter
          (fun t => t.due_date == some d)
        = tasks.filter (fun t => t.due_date == some d))
  ∧ (key ≠ "due-date" → key ≠ "priority" → key ≠ "title" →
      sort_tasks tasks key = tasks) := by
  refine ⟨by simp [sort_tasks], stable_sort_perm _ _,
    stable_sort_pairwise _ dueLe_total dueLe_trans _, ?_, ?_⟩
  · intro d
    have hPle : ∀ a b : Task, ((a.due_date == some d) = true) →
        ((b.due_date == some d) = true) → dueLe a b = true := by
      intro a b ha hb
      have ha' : a.due_date = some d := by simpa using ha
      have hb' : b.due_date = some d := by simpa using hb
      unfold dueLe
      rw [ha', hb', Option.getD_some]
      exact dtLe_refl d
    rw [stable_sort_filter dueLe _ dueLe_total dueLe_trans hPle]
    rw [List.filter_filter]
    refine List.filter_congr ?_
    intro t _
    cases ht : t.due_date <;> simp [ht]
  · intro h1 h2 h3
    unfold sort_tasks
    rw [if_neg h1, if_neg h2, if_neg h3]

/-- C9 witness: an unrecognized sort key leaves a store untouched. -/
theorem sort_tasks_spec_witness :
    ("random" ≠ "due-date" ∧ "random" ≠ "priority" ∧ "random" ≠ "title")
  ∧ sort_tasks [pendingTask] "random" = [pendingTask] :=
  ⟨by decide, (sort_tasks_spec [pendingTask] "random").2.2.2.2
    (by decide) (by decide) (by decide)⟩

theorem changes_get_filterMap (P : String → Prop) [DecidablePred P]
    (v : String → Option JValue × Option JValue) (k : String) :
    ∀ keys : List String, keys.Nodup →
      changes_get (keys.filterMap
          (fun j => if P j then some (j, v j) else none)) k
        = if k ∈ keys ∧ P k then some (v k) else none := by
  intro keys
  induction keys with
  | nil => intro _; simp [changes_get]
  | cons j rest ih =>
    intro hnd
    rcases List.nodup_cons.mp hnd with ⟨hj, hrest⟩
    by_cases hp : P j
    · simp only [List.filterMap_cons, if_pos hp]
      by_cases hkj : k = j
      · subst hkj
        rw [if_pos ⟨List.mem_cons_self _ _, hp⟩]
        unfold changes_get
        rw [List.find?_cons_of_pos _ (by simp)]
        rfl
      · have hne : (((j, v j) : String × (Option JValue × Option JValue)).1
            == k) = false := by
          simp [Ne.symm hkj]
        unfold changes_get
        rw [List.find?_cons_of_neg _ (by simp [hne])]
        have hrec := ih hrest
        unfold changes_get at hrec
        rw [hrec]
        exact if_congr (by simp [List.mem_cons, hkj]) rfl rfl
    · simp only [List.filterMap_cons, if_neg hp]
      rw [ih hrest]
      by_cases hkj : k = j
      · subst hkj
        rw [if_neg (fun hcon => hp hcon.2), if_neg (fun hcon => hp hcon.2)]
      · exact if_congr (by simp [List.mem_cons, hkj]) rfl rfl

/-- C10: the audit update diff contains an entry for a field name exactly
when the name appears in the old or the new snapshot and the two looked-up
values differ, and that entry pairs the old value with the new one; equal or
absent fields are omitted.  In particular the update from
`{"title": "A", "priority": "low"}` to `{"title": "B", "priority": "low"}`
yields only `{"title": {"old": "A", "new": "B"}}`. -/
theorem audit_update_changes_spec (old_data new_data : Snapshot)
    (k : String) :
    (changes_get (log_task_updated_changes old_data new_data) k
      = if (k ∈ old_data.map Prod.fst ∨ k ∈ new_data.map Prod.fst)
            ∧ snapGet old_data k ≠ snapGet new_data k
        then some (snapGet old_data k, snapGet new_data k)
        else none)
  ∧ log_task_updated_changes
      [("title", JValue.str "A"), ("priority", JValue.str "low")]
      [("title", JValue.str "B"), ("priority", JValue.str "low")]
      = [("title", (some (JValue.str "A"), some (JValue.str "B")))] := by
  constructor
  · have h := changes_get_filterMap
      (fun j => snapGet old_data j ≠ snapGet new_data j)
      (fun j => (snapGet old_data j, snapGet new_data j)) k
      ((old_data.map Prod.fst ++ new_data.map Prod.fst).dedup)
      (List.nodup_dedup _)
    rw [show log_task_updated_changes old_data new_data
        = ((old_data.map Prod.fst ++ new_data.map Prod.fst).dedup).filterMap
            (fun j => if snapGet old_data j ≠ snapGet new_data j
              then some (j, (snapGet old_data j, snapGet new_data j))
              else none) from rfl]
    rw [h]
    exact if_congr (by simp [List.mem_dedup, List.mem_append]) rfl rfl
  · decide

/-- C1 witness: completing the sample daily-recurring task appends exactly
one successor. -/
theorem toggle_complete_recurrence_spec_witness :
    ([recurringTask].find? (fun t => t.id == 1) = some recurringTask
      ∧ recurringTask.completed = false
      ∧ recurringTask.recurrence = some "daily"
      ∧ recurringTask.due_date = some jun30)
  ∧ (∃ nd, calculate_next_due_date jun30 "daily" = some nd
      ∧ (toggle_complete [recurringTask] 1 sampleDate).1
          = set_first (fun t => t.id == 1)
              { recurringTask with
                completed := true
                updated_at := sampleDate } [recurringTask]
            ++ [{ id := maxId [recurringTask] + 1, user_id := 1,
                  title := recurringTask.title,
                  description := recurringTask.description,
                  status := "pending", priority := recurringTask.priority,
                  tags := recurringTask.tags, completed := false,
                  due_date := some nd, recurrence := some "daily",
                  created_at := sampleDate, updated_at := sampleDate,
                  completed_at := none }]
      ∧ (toggle_complete [recurringTask] 1 sampleDate).1.length
          = [recurringTask].length + 1
      ∧ ∀ t ∈ [recurringTask], t.id < maxId [recurringTask] + 1) :=
  ⟨⟨by decide, by decide, by decide, by decide⟩,
    (toggle_complete_recurrence_spec [recurringTask] 1 sampleDate
      recurringTask (by decide)).2.2.2 "daily" jun30
      (by decide) (by decide) (Or.inl rfl) (by decide)⟩

/-- C2 witness: the recurrence rules instantiated at Jan 31 2025, 01:00. -/
theorem next_due_date_spec_witness :
    DateTime.Valid jan31
  ∧ ((calculate_next_due_date jan31 "daily" = some (addDays jan31 1)
      ∧ (addDays jan31 1).timeOfDay = jan31.timeOfDay)
    ∧ (calculate_next_due_date jan31 "weekly" = some (addDays jan31 7)
      ∧ (addDays jan31 7).timeOfDay = jan31.timeOfDay)
    ∧ (∃ e, calculate_next_due_date jan31 "monthly" = some e
        ∧ e.month = (if jan31.month = 12 then 1 else jan31.month + 1)
        ∧ e.year = (if jan31.month = 12 then jan31.year + 1 else jan31.year)
        ∧ e.day = min jan31.day (daysInMonth e.year e.month)
        ∧ e.timeOfDay = jan31.timeOfDay)
    ∧ calculate_next_due_date
        { year := 2025, month := 1, day := 31, timeOfDay := 3600 } "monthly"
        = some { year := 2025, month := 2, day := 28, timeOfDay := 3600 }
    ∧ calculate_next_due_date
        { year := 2024, month := 1, day := 31, timeOfDay := 3600 } "monthly"
        = some { year := 2024, month := 2, day := 29, timeOfDay := 3600 }
    ∧ calculate_next_due_date
        { year := 2025, month := 12, day := 15, timeOfDay := 999 } "monthly"
        = some { year := 2026, month := 1, day := 15, timeOfDay := 999 }) :=
  ⟨by decide, next_due_date_spec jan31 (by decide)⟩

/-- C3 witness: completing the sample `"biweekly"` task appends nothing. -/
theorem unrecognized_pattern_spec_witness :
    (biweeklyTask.completed = false
      ∧ biweeklyTask.recurrence = some "biweekly"
      ∧ "biweekly" ≠ "daily" ∧ "biweekly" ≠ "weekly"
      ∧ "biweekly" ≠ "monthly")
  ∧ ((toggle_complete [biweeklyTask] 1 sampleDate).1
        = set_first (fun t => t.id == 1)
            { biweeklyTask with completed := true, updated_at := sampleDate }
            [biweeklyTask]
      ∧ (toggle_complete [biweeklyTask] 1 sampleDate).1.length
          = [biweeklyTask].length) :=
  ⟨⟨by decide, by decide, by decide, by decide, by decide⟩,
    unrecognized_pattern_spec.2 [biweeklyTask] 1 sampleDate biweeklyTask
      "biweekly" jun30 (by decide) (by decide) (by decide) (by decide)
      (by decide) (by decide) (by decide)⟩

/-- C4 witness: a genuinely unrecognized priority string coerces to medium. -/
theorem parse_priority_amended_witness :
    (strLower "URGENT" ≠ "high" ∧ strLower "URGENT" ≠ "medium"
      ∧ strLower "URGENT" ≠ "low")
  ∧ parse_priority "URGENT" = TaskPriority.medium :=
  ⟨by decide, parse_priority_amended.1 "URGENT"
    (by decide) (by decide) (by decide)⟩

/-- C8 witness: after deleting id 1 from a two-task store, the id 2 task
survives, so the next assigned id is not the deleted 1. -/
theorem id_assignment_spec_witness :
    (∃ t ∈ (delete_task [pendingTask, secondTask] 1).1, 1 < t.id)
  ∧ (add_task (delete_task [pendingTask, secondTask] 1).1 sampleDate
      "again" "" none none none none).2.id ≠ 1 :=
  ⟨by decide,
    (id_assignment_spec.2.2 [pendingTask, secondTask] 1 sampleDate
      "again").2.2 (by decide)⟩

end Todo
